import Mathlib

/-!
Shallow embedding of the time-tracker server handlers.

The relational store is modelled as a record of lists, one per table, in
insertion order.  Drizzle queries become list operations: `select ... where`
is `List.filter` / `List.find?` (with `limit 1` taking the first match),
`insert ... returning` appends a record, `delete ... where` removes the
matching records, and `update ... set ... where` maps a merge function over
the matching records.  Timestamps are integers (milliseconds since epoch,
UTC model of the JS local-time calls); `Math.floor` of a division by a
positive constant is Lean integer division `/` on `Int`, which rounds toward
negative infinity for positive divisors.  Effects of the environment
(generated ids via `randomUUID`/`nanoid`, the clock `new Date()`) are passed
as explicit parameters.  Fallible handlers return `Except String`, carrying
the exact `throw new Error(...)` message of the source.
-/

/-- Subscription plans (`subscription_plan` enum in `db/schema.ts`). -/
inductive Plan
  | free
  | pro
  | enterprise
deriving DecidableEq, Repr

/-- Subscription statuses (`subscription_status` enum in `db/schema.ts`). -/
inductive SubStatus
  | active
  | cancelled
  | expired
deriving DecidableEq, Repr

/-- Plan name as it is interpolated into error messages. -/
def planName : Plan → String
  | Plan.free => "free"
  | Plan.pro => "pro"
  | Plan.enterprise => "enterprise"

/-- Row of the `users` table. -/
structure User where
  id : String
  email : String
  name : String
  created_at : Int
  updated_at : Int
deriving DecidableEq, Repr

/-- Row of the `organizations` table. -/
structure Organization where
  id : String
  name : String
  owner_id : String
  created_at : Int
  updated_at : Int
deriving DecidableEq, Repr

/-- Row of the `subscriptions` table. -/
structure Subscription where
  id : String
  user_id : String
  plan : Plan
  status : SubStatus
  max_customers : Int
  max_projects : Int
  created_at : Int
  updated_at : Int
  expires_at : Option Int
deriving DecidableEq, Repr

/-- Row of the `customers` table. -/
structure Customer where
  id : String
  name : String
  email : Option String
  phone : Option String
  address : Option String
  organization_id : String
  created_by : String
  created_at : Int
  updated_at : Int
deriving DecidableEq, Repr

/-- Row of the `projects` table. -/
structure Project where
  id : String
  name : String
  description : Option String
  customer_id : String
  organization_id : String
  created_by : String
  is_active : Bool
  created_at : Int
  updated_at : Int
deriving DecidableEq, Repr

/-- Row of the `time_entries` table. -/
structure TimeEntry where
  id : String
  user_id : String
  customer_id : Option String
  project_id : Option String
  description : String
  start_time : Int
  end_time : Option Int
  duration_minutes : Option Int
  tags : List String
  created_at : Int
  updated_at : Int
deriving DecidableEq, Repr

/-- The six relational tables, each as a list of rows in insertion order. -/
structure DB where
  users : List User
  organizations : List Organization
  subscriptions : List Subscription
  customers : List Customer
  projects : List Project
  time_entries : List TimeEntry
deriving DecidableEq, Repr

/-- JS `x || null` on a nullable string: the empty string is falsy and is
collapsed to null; a non-empty string passes through. -/
def jsOrNull : Option String → Option String
  | some s => if s = "" then none else some s
  | none => none

/-- Input of `createCustomer` (`CreateCustomerInput` in `schema.ts`). -/
structure CreateCustomerInput where
  name : String
  email : Option String
  phone : Option String
  address : Option String
  organization_id : String
deriving DecidableEq, Repr

/-- Embedding of `createCustomer` (`src/unnamed/part_010`): verify the
organization, load the owner subscription (`limit 1`), require it active,
count customers of the organization and fail when
`existingCustomers >= max_customers` (the source has no special case for the
`-1` sentinel), otherwise insert the customer row. -/
def createCustomer (db : DB) (input : CreateCustomerInput) (createdBy customerId : String)
    (now : Int) : Except String (Customer × DB) :=
  match db.organizations.find? (fun o => o.id == input.organization_id) with
  | none => Except.error "Organization not found"
  | some org =>
    match db.subscriptions.find? (fun s => s.user_id == org.owner_id) with
    | none => Except.error "No subscription found for organization owner"
    | some sub =>
      if sub.status ≠ SubStatus.active then
        Except.error "Subscription is not active"
      else
        let existingCustomers : Int :=
          (db.customers.filter (fun c => c.organization_id == input.organization_id)).length
        if sub.max_customers ≤ existingCustomers then
          Except.error ("Customer limit reached. Maximum " ++ toString sub.max_customers ++
            " customers allowed for " ++ planName sub.plan ++ " plan")
        else
          let c : Customer :=
            { id := customerId
              name := input.name
              email := jsOrNull input.email
              phone := jsOrNull input.phone
              address := jsOrNull input.address
              organization_id := input.organization_id
              created_by := createdBy
              created_at := now
              updated_at := now }
          Except.ok (c, { db with customers := db.customers ++ [c] })

/-- Input of `createProject` (`CreateProjectInput` in `schema.ts`). -/
structure CreateProjectInput where
  name : String
  description : Option String
  customer_id : String
  organization_id : String
deriving DecidableEq, Repr

/-- Embedding of `createProject` (`src/unnamed/part_012`): verify the
organization; verify in a single query that the customer exists AND belongs
to the given organization (one combined error message for both failures);
load the owner subscription, require it active; count projects of the
organization and fail when `count >= max_projects` (again no `-1` special
case); otherwise insert. -/
def createProject (db : DB) (input : CreateProjectInput) (createdBy projectId : String)
    (now : Int) : Except String (Project × DB) :=
  match db.organizations.find? (fun o => o.id == input.organization_id) with
  | none => Except.error "Organization not found"
  | some org =>
    match db.customers.find? (fun c =>
        c.id == input.customer_id && c.organization_id == input.organization_id) with
    | none => Except.error "Customer not found or does not belong to the specified organization"
    | some _ =>
      match db.subscriptions.find? (fun s => s.user_id == org.owner_id) with
      | none => Except.error "No subscription found for organization owner"
      | some sub =>
        if sub.status ≠ SubStatus.active then
          Except.error "Subscription is not active"
        else
          let projectCount : Int :=
            (db.projects.filter (fun p => p.organization_id == input.organization_id)).length
          if sub.max_projects ≤ projectCount then
            Except.error "Project limit exceeded for current subscription"
          else
            let p : Project :=
              { id := projectId
                name := input.name
                description := jsOrNull input.description
                customer_id := input.customer_id
                organization_id := input.organization_id
                created_by := createdBy
                is_active := true
                created_at := now
                updated_at := now }
            Except.ok (p, { db with projects := db.projects ++ [p] })

/-- Embedding of `deleteCustomer` (`src/unnamed/part_011`): delete the time
entries referencing the customer, then the time entries of each of its
projects, then its projects, then the customer row itself; return whether a
customer row was actually removed (`returning` length). -/
def deleteCustomer (db : DB) (customerId : String) : Bool × DB :=
  let te1 := db.time_entries.filter (fun e => e.customer_id != some customerId)
  let customerProjects := db.projects.filter (fun p => p.customer_id == customerId)
  let projectIds := customerProjects.map (fun p => p.id)
  let te2 := projectIds.foldl
    (fun acc pid => acc.filter (fun e => e.project_id != some pid)) te1
  let projects2 := db.projects.filter (fun p => p.customer_id != customerId)
  let removed := db.customers.filter (fun c => c.id == customerId)
  let customers2 := db.customers.filter (fun c => c.id != customerId)
  (decide (0 < removed.length),
    { db with time_entries := te2, projects := projects2, customers := customers2 })

/-- Embedding of `deleteProject` (`src/unnamed/part_015`): delete the time
entries referencing the project, then the project; return whether the delete
affected at least one row (`rowCount`). -/
def deleteProject (db : DB) (projectId : String) : Bool × DB :=
  let te := db.time_entries.filter (fun e => e.project_id != some projectId)
  let removedCount := (db.projects.filter (fun p => p.id == projectId)).length
  let projects2 := db.projects.filter (fun p => p.id != projectId)
  (decide (0 < removedCount), { db with time_entries := te, projects := projects2 })

/-- Embedding of `deleteTimeEntry` (`src/unnamed/part_014`): delete the time
entry by id; return whether a row was deleted (`rowCount`). -/
def deleteTimeEntry (db : DB) (timeEntryId : String) : Bool × DB :=
  let removedCount := (db.time_entries.filter (fun e => e.id == timeEntryId)).length
  let te := db.time_entries.filter (fun e => e.id != timeEntryId)
  (decide (0 < removedCount), { db with time_entries := te })

/-- Input of `createTimeEntry` (`CreateTimeEntryInput` in `schema.ts`). -/
structure CreateTimeEntryInput where
  description : String
  start_time : Int
  end_time : Option Int
  customer_id : Option String
  project_id : Option String
  tags : Option (List String)
deriving DecidableEq, Repr

/-- Embedding of `createTimeEntry`
(`src/server/src/handlers/create_time_entry.ts`): when `end_time` is
provided, `duration_minutes = Math.floor((end - start) / 60000)` (floor
division), otherwise null; then insert the row.  The handler has no failure
path of its own. -/
def createTimeEntry (db : DB) (input : CreateTimeEntryInput) (userId entryId : String)
    (now : Int) : TimeEntry × DB :=
  let durationMinutes : Option Int :=
    input.end_time.map (fun e => (e - input.start_time) / 60000)
  let te : TimeEntry :=
    { id := entryId
      user_id := userId
      customer_id := jsOrNull input.customer_id
      project_id := jsOrNull input.project_id
      description := input.description
      start_time := input.start_time
      end_time := input.end_time
      duration_minutes := durationMinutes
      tags := input.tags.getD []
      created_at := now
      updated_at := now }
  (te, { db with time_entries := db.time_entries ++ [te] })

/-- Input of `updateTimeEntry` (`UpdateTimeEntryInput` in `schema.ts`).
Nullable updatable fields distinguish absent (outer `none`, JS `undefined`)
from an explicit null (`some none`). -/
structure UpdateTimeEntryInput where
  id : String
  customer_id : Option (Option String)
  project_id : Option (Option String)
  description : Option String
  start_time : Option Int
  end_time : Option (Option Int)
  tags : Option (List String)
deriving DecidableEq, Repr

/-- The merged row `updateTimeEntry` writes for an existing entry: provided
fields replace, absent fields are retained, `updated_at` is refreshed; the
effective start/end pair is resolved (new value if provided else existing)
and `duration_minutes` is recomputed when the effective end is present,
cleared when `end_time` is explicitly null, and retained otherwise. -/
def mergeTimeEntry (input : UpdateTimeEntryInput) (now : Int) (old : TimeEntry) : TimeEntry :=
  let startTime : Int :=
    match input.start_time with
    | some t => t
    | none => old.start_time
  let endTime : Option Int :=
    match input.end_time with
    | some v => v
    | none => old.end_time
  let base : TimeEntry :=
    { old with
      customer_id :=
        match input.customer_id with
        | some v => v
        | none => old.customer_id
      project_id :=
        match input.project_id with
        | some v => v
        | none => old.project_id
      description :=
        match input.description with
        | some d => d
        | none => old.description
      start_time := startTime
      end_time := endTime
      tags :=
        match input.tags with
        | some t => t
        | none => old.tags
      updated_at := now }
  match endTime with
  | some e => { base with duration_minutes := some ((e - startTime) / 60000) }
  | none =>
    if input.end_time == some none then
      { base with duration_minutes := none }
    else
      base

/-- Embedding of `updateTimeEntry`
(`src/server/src/handlers/update_time_entry.ts`): fetch the existing entry
(error when absent), merge per `mergeTimeEntry`, and write the merged row
back over every row with the given id. -/
def updateTimeEntry (db : DB) (input : UpdateTimeEntryInput) (now : Int) :
    Except String (TimeEntry × DB) :=
  match db.time_entries.find? (fun e => e.id == input.id) with
  | none => Except.error ("Time entry with id " ++ input.id ++ " not found")
  | some old =>
    let updated := mergeTimeEntry input now old
    Except.ok (updated,
      { db with time_entries :=
          db.time_entries.map (fun e => if e.id == input.id then updated else e) })

/-- Input of `updateSubscription` (`UpdateSubscriptionInput` in `schema.ts`). -/
structure UpdateSubscriptionInput where
  id : String
  plan : Option Plan
  status : Option SubStatus
  max_customers : Option Int
  max_projects : Option Int
  expires_at : Option (Option Int)
deriving DecidableEq, Repr

/-- The merged row `updateSubscription` writes: only provided fields replace,
`updated_at` is refreshed. -/
def mergeSubscription (input : UpdateSubscriptionInput) (now : Int) (old : Subscription) :
    Subscription :=
  { old with
    plan := input.plan.getD old.plan
    status := input.status.getD old.status
    max_customers := input.max_customers.getD old.max_customers
    max_projects := input.max_projects.getD old.max_projects
    expires_at := input.expires_at.getD old.expires_at
    updated_at := now }

/-- Embedding of `updateSubscription` (`src/unnamed/part_016`): update the
row with the given id with only the provided fields plus `updated_at`; error
when no row matched (`returning` came back empty). -/
def updateSubscription (db : DB) (input : UpdateSubscriptionInput) (now : Int) :
    Except String (Subscription × DB) :=
  match db.subscriptions.find? (fun s => s.id == input.id) with
  | none => Except.error ("Subscription with id " ++ input.id ++ " not found")
  | some old =>
    let updated := mergeSubscription input now old
    Except.ok (updated,
      { db with subscriptions :=
          db.subscriptions.map (fun s => if s.id == input.id then updated else s) })

/-- Input of `createUser` (`CreateUserInput` in `schema.ts`); the password is
consumed by the validation layer and never stored (the `users` table has no
password column), so it is omitted here. -/
structure CreateUserInput where
  email : String
  name : String
deriving DecidableEq, Repr

/-- The apostrophe character, as a string. -/
def apos : String := String.mk [Char.ofNat 39]

/-- Suffix of the default organization name: "'s Organization". -/
def orgSuffix : String := apos ++ "s Organization"

/-- Embedding of `createUser` (`src/unnamed/part_014`): insert the user, a
default organization named `"{name}'s Organization"` owned by the user, and
a default free/active subscription with limits 3/3 and no expiry.  The
duplicate-email check models the store-enforced unique constraint on
`users.email` (`db/schema.ts`), which surfaces as a conflict error. -/
def createUser (db : DB) (input : CreateUserInput) (userId organizationId subscriptionId : String)
    (now : Int) : Except String (User × DB) :=
  if db.users.any (fun u => u.email == input.email) then
    Except.error "duplicate email"
  else
    let user : User :=
      { id := userId, email := input.email, name := input.name
        created_at := now, updated_at := now }
    let org : Organization :=
      { id := organizationId
        name := input.name ++ orgSuffix
        owner_id := userId
        created_at := now
        updated_at := now }
    let sub : Subscription :=
      { id := subscriptionId
        user_id := userId
        plan := Plan.free
        status := SubStatus.active
        max_customers := 3
        max_projects := 3
        created_at := now
        updated_at := now
        expires_at := none }
    Except.ok (user,
      { db with
        users := db.users ++ [user]
        organizations := db.organizations ++ [org]
        subscriptions := db.subscriptions ++ [sub] })

/-- Default `max_customers` per plan in `createSubscription`
(`src/unnamed/part_017`); the source comment documents `-1` as unlimited. -/
def defaultMaxCustomers : Plan → Int
  | Plan.free => 3
  | Plan.pro => 50
  | Plan.enterprise => -1

/-- Default `max_projects` per plan in `createSubscription`
(`src/unnamed/part_017`); the source comment documents `-1` as unlimited. -/
def defaultMaxProjects : Plan → Int
  | Plan.free => 3
  | Plan.pro => 100
  | Plan.enterprise => -1

/-- Input of `createSubscription` (`CreateSubscriptionInput` in `schema.ts`). -/
structure CreateSubscriptionInput where
  user_id : String
  plan : Plan
  max_customers : Option Int
  max_projects : Option Int
  expires_at : Option Int
deriving DecidableEq, Repr

/-- Embedding of `createSubscription` (`src/unnamed/part_017`): verify the
user exists, then insert an active subscription with the provided limits or
the plan defaults (`input.max_customers ?? limits.customers`). -/
def createSubscription (db : DB) (input : CreateSubscriptionInput) (subscriptionId : String)
    (now : Int) : Except String (Subscription × DB) :=
  if db.users.find? (fun u => u.id == input.user_id) = none then
    Except.error "User not found"
  else
    let sub : Subscription :=
      { id := subscriptionId
        user_id := input.user_id
        plan := input.plan
        status := SubStatus.active
        max_customers := input.max_customers.getD (defaultMaxCustomers input.plan)
        max_projects := input.max_projects.getD (defaultMaxProjects input.plan)
        created_at := now
        updated_at := now
        expires_at := input.expires_at }
    Except.ok (sub, { db with subscriptions := db.subscriptions ++ [sub] })

/-! Dashboard aggregator (`src/unnamed/part_011`, `getDashboardStats`).
Date arithmetic of the source (`new Date(y, m, d)`, `getDay()`,
`setDate(getDate() - getDay())`) is modelled over milliseconds since epoch
with a zero UTC offset, using the standard Gregorian civil-calendar
conversions for the month boundary. -/

/-- Milliseconds per civil day. -/
def msPerDay : Int := 86400000

/-- Midnight of the civil day containing `t`
(`new Date(now.getFullYear(), now.getMonth(), now.getDate())`). -/
def startOfDayMs (t : Int) : Int := (t / msPerDay) * msPerDay

/-- JS `Date.getDay()`: day of week with Sunday = 0; 1970-01-01 was a
Thursday (4). -/
def jsGetDay (t : Int) : Int := (t / msPerDay + 4) % 7

/-- Week start used by the source:
`startOfWeek.setDate(startOfToday.getDate() - startOfToday.getDay())`,
i.e. midnight minus the Sunday-based day-of-week in days. -/
def startOfWeekMs (t : Int) : Int :=
  startOfDayMs t - jsGetDay (startOfDayMs t) * msPerDay

/-- Days since 1970-01-01 of the civil date `(y, m, d)` with months 1..12
(Gregorian civil-from-days inverse, Hinnant's algorithm). -/
def daysFromCivil (y m d : Int) : Int :=
  let y2 := if m ≤ 2 then y - 1 else y
  let era := y2 / 400
  let yoe := y2 - era * 400
  let mp := (m + 9) % 12
  let doy := (153 * mp + 2) / 5 + d - 1
  let doe := yoe * 365 + yoe / 4 - yoe / 100 + doy
  era * 146097 + doe - 719468

/-- Civil date `(y, m, d)` (months 1..12) of the day `z` days after
1970-01-01 (Hinnant's algorithm). -/
def civilFromDays (z : Int) : Int × Int × Int :=
  let z2 := z + 719468
  let era := z2 / 146097
  let doe := z2 - era * 146097
  let yoe := (doe - doe / 1460 + doe / 36524 - doe / 146096) / 365
  let y := yoe + era * 400
  let doy := doe - (365 * yoe + yoe / 4 - yoe / 100)
  let mp := (5 * doy + 2) / 153
  let d := doy - (153 * mp + 2) / 5 + 1
  let m := mp + (if mp < 10 then 3 else -9)
  (if m ≤ 2 then y + 1 else y, m, d)

/-- Midnight of the first day of the civil month containing `t`
(`new Date(now.getFullYear(), now.getMonth(), 1)`). -/
def startOfMonthMs (t : Int) : Int :=
  let c := civilFromDays (t / msPerDay)
  daysFromCivil c.1 c.2.1 1 * msPerDay

/-- Time entries ordered by `start_time` descending
(`orderBy(desc(timeEntriesTable.start_time))`). -/
def sortEntriesDesc (l : List TimeEntry) : List TimeEntry :=
  List.insertionSort (fun a b => b.start_time ≤ a.start_time) l

/-- Row filter shared by the three window totals: the user's entries whose
`start_time` lies in `[lo, hi]` and whose `duration_minutes` is not null. -/
def windowRow (u : String) (lo hi : Int) (e : TimeEntry) : Bool :=
  e.user_id == u && decide (lo ≤ e.start_time) && decide (e.start_time ≤ hi) &&
    e.duration_minutes.isSome

/-- SQL inner join of `time_entries` with a parent table (`customers` or
`projects`) on `fk e = pid c`, followed by the `where` clause of the top-N
queries: user, parent in the organization, month window, non-null duration
and non-null foreign key. -/
def joinRows {P : Type} (entries : List TimeEntry) (parents : List P)
    (fk : TimeEntry → Option String) (pid porg : P → String)
    (u o : String) (lo hi : Int) : List (TimeEntry × P) :=
  (entries.flatMap (fun e =>
    (parents.filter (fun c => fk e == some (pid c))).map (fun c => (e, c)))).filter
    (fun r => windowRow u lo hi r.1 && porg r.2 == o && (fk r.1).isSome)

/-- Group total of the rows with a given `(parent id, parent name)` key:
`sum(duration_minutes)` over the group. -/
def rowTotal {P : Type} (rows : List (TimeEntry × P)) (pid pname : P → String)
    (k : String × String) : Int :=
  ((rows.filter (fun r => pid r.2 == k.1 && pname r.2 == k.2)).filterMap
    (fun r => r.1.duration_minutes)).sum

/-- Group the joined rows by `(parent id, parent name)`, sum the durations
per group, sort descending by total and cap at 5. -/
def topGroups {P : Type} (rows : List (TimeEntry × P)) (pid pname : P → String) :
    List (String × String × Int) :=
  let keys := (rows.map (fun r => (pid r.2, pname r.2))).dedup
  let groups := keys.map (fun k => (k.1, k.2, rowTotal rows pid pname k))
  (List.insertionSort (fun a b : String × String × Int => b.2.2 ≤ a.2.2) groups).take 5

/-- One row of `topCustomersByTime`. -/
structure TopCustomer where
  customer_id : String
  customer_name : String
  total_minutes : Int
deriving DecidableEq, Repr

/-- One row of `topProjectsByTime`. -/
structure TopProject where
  project_id : String
  project_name : String
  total_minutes : Int
deriving DecidableEq, Repr

/-- Result of `getDashboardStats`. -/
structure DashboardStats where
  totalTimeToday : Int
  totalTimeThisWeek : Int
  totalTimeThisMonth : Int
  totalCustomers : Nat
  totalProjects : Nat
  recentEntries : List TimeEntry
  topCustomersByTime : List TopCustomer
  topProjectsByTime : List TopProject
deriving DecidableEq, Repr

/-- Embedding of `getDashboardStats` (`src/unnamed/part_011`): window totals
as `sum(duration_minutes)` over the filtered entries (SQL `SUM` of a null-
free column; an empty result sums to 0 as in the `parseInt`-or-0 fallback),
customer/project counts for the organization, the 10 most recent entries of
the user by `start_time` descending, and the month top-5 rankings per
customer and per project. -/
def getDashboardStats (db : DB) (userId organizationId : String) (now : Int) :
    DashboardStats :=
  let startOfToday := startOfDayMs now
  let startOfWeek := startOfToday - jsGetDay startOfToday * msPerDay
  let startOfMonth := startOfMonthMs now
  let totalTimeToday :=
    ((db.time_entries.filter (windowRow userId startOfToday now)).filterMap
      (fun e => e.duration_minutes)).sum
  let totalTimeThisWeek :=
    ((db.time_entries.filter (windowRow userId startOfWeek now)).filterMap
      (fun e => e.duration_minutes)).sum
  let totalTimeThisMonth :=
    ((db.time_entries.filter (windowRow userId startOfMonth now)).filterMap
      (fun e => e.duration_minutes)).sum
  let totalCustomers :=
    (db.customers.filter (fun c => c.organization_id == organizationId)).length
  let totalProjects :=
    (db.projects.filter (fun p => p.organization_id == organizationId)).length
  let recentEntries :=
    (sortEntriesDesc (db.time_entries.filter (fun e => e.user_id == userId))).take 10
  let custRows := joinRows db.time_entries db.customers (fun e => e.customer_id)
    (fun c => c.id) (fun c => c.organization_id) userId organizationId startOfMonth now
  let topCustomersByTime :=
    (topGroups custRows (fun c => c.id) (fun c => c.name)).map
      (fun g => { customer_id := g.1, customer_name := g.2.1, total_minutes := g.2.2 })
  let projRows := joinRows db.time_entries db.projects (fun e => e.project_id)
    (fun p => p.id) (fun p => p.organization_id) userId organizationId startOfMonth now
  let topProjectsByTime :=
    (topGroups projRows (fun p => p.id) (fun p => p.name)).map
      (fun g => { project_id := g.1, project_name := g.2.1, total_minutes := g.2.2 })
  { totalTimeToday := totalTimeToday
    totalTimeThisWeek := totalTimeThisWeek
    totalTimeThisMonth := totalTimeThisMonth
    totalCustomers := totalCustomers
    totalProjects := totalProjects
    recentEntries := recentEntries
    topCustomersByTime := topCustomersByTime
    topProjectsByTime := topProjectsByTime }

/-- Specification-side formulation of a window total: the sum of the
non-null `duration_minutes` over the user's entries whose `start_time` lies
in `[lo, hi]` (null durations dropped by `filterMap`). -/
def specWindowTotal (db : DB) (u : String) (lo hi : Int) : Int :=
  ((db.time_entries.filter (fun e =>
    e.user_id == u && decide (lo ≤ e.start_time) && decide (e.start_time ≤ hi))).filterMap
    (fun e => e.duration_minutes)).sum

/-- Specification-side formulation of a per-customer month total: the sum of
the non-null durations of the user's entries in the window whose
`customer_id` is exactly this customer. -/
def specCustomerTotal (db : DB) (u : String) (lo hi : Int) (cid : String) : Int :=
  ((db.time_entries.filter (fun e =>
    e.user_id == u && e.customer_id == some cid && decide (lo ≤ e.start_time) &&
      decide (e.start_time ≤ hi))).filterMap (fun e => e.duration_minutes)).sum

/-- Specification-side formulation of a per-project month total. -/
def specProjectTotal (db : DB) (u : String) (lo hi : Int) (pid : String) : Int :=
  ((db.time_entries.filter (fun e =>
    e.user_id == u && e.project_id == some pid && decide (lo ≤ e.start_time) &&
      decide (e.start_time ≤ hi))).filterMap (fun e => e.duration_minutes)).sum

/-! Concrete stores and inputs used by the counterexamples and witnesses. -/

/-- The empty store. -/
def dbEmpty : DB :=
  { users := [], organizations := [], subscriptions := [], customers := [],
    projects := [], time_entries := [] }

/-- Owner of the organizations in the concrete scenarios. -/
def c1user : User :=
  { id := "u1", email := "owner@x.io", name := "Owner", created_at := 0, updated_at := 0 }

/-- Store with only the owner, for exercising `createSubscription`. -/
def c1db0 : DB := { dbEmpty with users := [c1user] }

/-- Enterprise-plan subscription request with no explicit limit overrides. -/
def c1subInput : CreateSubscriptionInput :=
  { user_id := "u1", plan := Plan.enterprise, max_customers := none, max_projects := none,
    expires_at := none }

/-- Organization owned by `u1`. -/
def c1org : Organization :=
  { id := "org1", name := "Org One", owner_id := "u1", created_at := 0, updated_at := 0 }

/-- Active enterprise subscription with the documented unlimited sentinel. -/
def c1sub : Subscription :=
  { id := "sub1", user_id := "u1", plan := Plan.enterprise, status := SubStatus.active,
    max_customers := -1, max_projects := -1, created_at := 0, updated_at := 0,
    expires_at := none }

/-- Customer of `org1`, used as the valid customer for `createProject`. -/
def c1customer : Customer :=
  { id := "cA", name := "Acme", email := none, phone := none, address := none,
    organization_id := "org1", created_by := "u1", created_at := 0, updated_at := 0 }

/-- Store with an active `-1`-limit subscription and zero customers. -/
def c1dbCust : DB :=
  { dbEmpty with users := [c1user], organizations := [c1org], subscriptions := [c1sub] }

/-- Store with an active `-1`-limit subscription, one customer of the same
organization and zero projects. -/
def c1dbProj : DB := { c1dbCust with customers := [c1customer] }

/-- Customer-creation request against `org1`. -/
def c1custInput : CreateCustomerInput :=
  { name := "New Customer", email := none, phone := none, address := none,
    organization_id := "org1" }

/-- Project-creation request against `org1` referencing its customer `cA`. -/
def c1projInput : CreateProjectInput :=
  { name := "New Project", description := none, customer_id := "cA",
    organization_id := "org1" }

/-- Second organization, used for the cross-organization customer. -/
def c2orgB : Organization :=
  { id := "orgB", name := "Org B", owner_id := "u1", created_at := 0, updated_at := 0 }

/-- Customer that belongs to `orgB`, not to `org1`. -/
def c2customer : Customer :=
  { id := "cB", name := "Borg", email := none, phone := none, address := none,
    organization_id := "orgB", created_by := "u1", created_at := 0, updated_at := 0 }

/-- Store with two organizations and a customer only in the second one. -/
def c2db : DB :=
  { dbEmpty with
    users := [c1user]
    organizations := [c1org, c2orgB]
    customers := [c2customer] }

/-- Project request whose `customer_id` matches no customer at all. -/
def c2missingInput : CreateProjectInput :=
  { name := "P", description := none, customer_id := "missing", organization_id := "org1" }

/-- Project request whose `customer_id` names a customer of another
organization. -/
def c2wrongOrgInput : CreateProjectInput :=
  { name := "P", description := none, customer_id := "cB", organization_id := "org1" }

/-- Finished time entry with a two-minute duration. -/
def c3entry : TimeEntry :=
  { id := "t1", user_id := "u1", customer_id := none, project_id := none,
    description := "work", start_time := 0, end_time := some 120000,
    duration_minutes := some 2, tags := [], created_at := 0, updated_at := 0 }

/-- Store holding only `c3entry`. -/
def c3db : DB := { dbEmpty with time_entries := [c3entry] }

/-- Update that explicitly sets `end_time` to null and nothing else. -/
def c3input : UpdateTimeEntryInput :=
  { id := "t1", customer_id := none, project_id := none, description := none,
    start_time := none, end_time := some none, tags := none }

/-- Row stored after the explicit null-out of `end_time`. -/
def c3updated : TimeEntry :=
  { c3entry with end_time := none, duration_minutes := none, updated_at := 7 }

/-- Store after the explicit null-out of `end_time`. -/
def c3dbr : DB := { c3db with time_entries := [c3updated] }

/-- Creation input with a 150-second interval, for the duration witness. -/
def c3createInput : CreateTimeEntryInput :=
  { description := "w", start_time := 0, end_time := some 150000, customer_id := none,
    project_id := none, tags := none }

/-- Customer whose cascade is exercised by the delete witnesses. -/
def c4customer : Customer :=
  { id := "cD", name := "Doomed", email := none, phone := none, address := none,
    organization_id := "org1", created_by := "u1", created_at := 0, updated_at := 0 }

/-- Unrelated customer that must survive the cascade. -/
def c4other : Customer :=
  { id := "cK", name := "Kept", email := none, phone := none, address := none,
    organization_id := "org1", created_by := "u1", created_at := 0, updated_at := 0 }

/-- Project of the doomed customer. -/
def c4project : Project :=
  { id := "pD", name := "Doomed project", description := none, customer_id := "cD",
    organization_id := "org1", created_by := "u1", is_active := true, created_at := 0,
    updated_at := 0 }

/-- Entry linked directly to the doomed customer. -/
def c4entryCust : TimeEntry :=
  { id := "eC", user_id := "u1", customer_id := some "cD", project_id := none,
    description := "direct", start_time := 0, end_time := none, duration_minutes := none,
    tags := [], created_at := 0, updated_at := 0 }

/-- Entry linked to the doomed customer via its project only. -/
def c4entryProj : TimeEntry :=
  { id := "eP", user_id := "u1", customer_id := none, project_id := some "pD",
    description := "via project", start_time := 0, end_time := none,
    duration_minutes := none, tags := [], created_at := 0, updated_at := 0 }

/-- Unrelated entry that must survive the cascade. -/
def c4entryKept : TimeEntry :=
  { id := "eK", user_id := "u1", customer_id := some "cK", project_id := none,
    description := "kept", start_time := 0, end_time := none, duration_minutes := none,
    tags := [], created_at := 0, updated_at := 0 }

/-- Store with the doomed customer, its project, two dependent entries and
unrelated rows. -/
def c4db : DB :=
  { dbEmpty with
    users := [c1user]
    organizations := [c1org]
    customers := [c4customer, c4other]
    projects := [c4project]
    time_entries := [c4entryCust, c4entryProj, c4entryKept] }

/-- Two finished entries of one user on the same day, for the dashboard
witnesses: 120 and 60 minutes starting inside day 0 of the epoch. -/
def c6entryA : TimeEntry :=
  { id := "eA", user_id := "u1", customer_id := some "cA", project_id := some "pD",
    description := "a", start_time := 3600000, end_time := some 10800000,
    duration_minutes := some 120, tags := [], created_at := 0, updated_at := 0 }

/-- Second dashboard entry: 60 minutes, still running sibling below. -/
def c6entryB : TimeEntry :=
  { id := "eB", user_id := "u1", customer_id := some "cA", project_id := some "pD",
    description := "b", start_time := 7200000, end_time := some 10800000,
    duration_minutes := some 60, tags := [], created_at := 0, updated_at := 0 }

/-- Active (unfinished) dashboard entry with a null duration. -/
def c6entryActive : TimeEntry :=
  { id := "eX", user_id := "u1", customer_id := some "cA", project_id := none,
    description := "x", start_time := 9000000, end_time := none,
    duration_minutes := none, tags := [], created_at := 0, updated_at := 0 }

/-- Store for the dashboard witnesses: one customer, one project, three
entries of `u1` on the first epoch day. -/
def c6db : DB :=
  { dbEmpty with
    users := [c1user]
    organizations := [c1org]
    customers := [c1customer]
    projects := [c4project]
    time_entries := [c6entryA, c6entryB, c6entryActive] }

/-- Clock instant used by the dashboard witnesses: 03:00:00 into day 4 of
the epoch (Monday 1970-01-05). -/
def c6now : Int := 4 * 86400000 + 10800000

/-- Finished one-minute entry, pre-state of the frame counterexample. -/
def c8entry : TimeEntry :=
  { id := "t1", user_id := "u1", customer_id := none, project_id := none,
    description := "work", start_time := 0, end_time := some 60000,
    duration_minutes := some 1, tags := [], created_at := 0, updated_at := 0 }

/-- Store holding only `c8entry`. -/
def c8db : DB := { dbEmpty with time_entries := [c8entry] }

/-- Update payload that provides only `end_time`. -/
def c8input : UpdateTimeEntryInput :=
  { id := "t1", customer_id := none, project_id := none, description := none,
    start_time := none, end_time := some (some 120000), tags := none }

/-- Row stored by the frame counterexample: `duration_minutes` changed even
though it was not part of the payload. -/
def c8updated : TimeEntry :=
  { c8entry with end_time := some 120000, duration_minutes := some 2, updated_at := 9 }

/-- Store after the frame counterexample update. -/
def c8dbr : DB := { c8db with time_entries := [c8updated] }

/-- Subscription used by the frame witness. -/
def c8sub : Subscription :=
  { id := "s1", user_id := "u1", plan := Plan.free, status := SubStatus.active,
    max_customers := 3, max_projects := 3, created_at := 0, updated_at := 0,
    expires_at := none }

/-- Store holding only `c8sub`. -/
def c8subDb : DB := { dbEmpty with subscriptions := [c8sub] }

/-- Subscription update that provides only `status`. -/
def c8subInput : UpdateSubscriptionInput :=
  { id := "s1", plan := none, status := some SubStatus.cancelled, max_customers := none,
    max_projects := none, expires_at := none }

/-- Signup input for the user-creation witness. -/
def c9input : CreateUserInput := { email := "ann@x.io", name := "Ann" }

/-- User row created by the user-creation witness. -/
def c9user : User :=
  { id := "u9", email := "ann@x.io", name := "Ann", created_at := 4, updated_at := 4 }

/-- Organization row created by the user-creation witness. -/
def c9org : Organization :=
  { id := "o9", name := "Ann" ++ orgSuffix, owner_id := "u9", created_at := 4,
    updated_at := 4 }

/-- Subscription row created by the user-creation witness. -/
def c9sub : Subscription :=
  { id := "s9", user_id := "u9", plan := Plan.free, status := SubStatus.active,
    max_customers := 3, max_projects := 3, created_at := 4, updated_at := 4,
    expires_at := none }

/-- Store after the user-creation witness. -/
def c9dbr : DB :=
  { dbEmpty with
    users := [c9user]
    organizations := [c9org]
    subscriptions := [c9sub] }

/-- Creation input whose `end_time` precedes `start_time` by 90 seconds. -/
def c10createInput : CreateTimeEntryInput :=
  { description := "back", start_time := 90000, end_time := some 0, customer_id := none,
    project_id := none, tags := none }

/-- Update that moves `start_time` past the stored `end_time`. -/
def c10updateInput : UpdateTimeEntryInput :=
  { id := "t1", customer_id := none, project_id := none, description := none,
    start_time := some 300000, end_time := none, tags := none }

/-! Helper lemmas shared by several claim proofs. -/

/-- Membership in a left fold of filters: the element survives iff it was in
the initial list and passes the predicate for every folded id. -/
theorem mem_foldl_filter {α β : Type} (p : α → β → Bool) (ids : List β) (l : List α)
    (x : α) :
    (x ∈ ids.foldl (fun acc i => acc.filter (fun y => p y i)) l) ↔
      x ∈ l ∧ ∀ i ∈ ids, p x i = true := by
  induction ids generalizing l with
  | nil => simp
  | cons i is ih =>
    simp only [List.foldl_cons, ih, List.mem_filter, List.mem_cons]
    constructor
    · rintro ⟨⟨hx, hpi⟩, hall⟩
      exact ⟨hx, fun j hj => by rcases hj with rfl | hj; exact hpi; exact hall j hj⟩
    · rintro ⟨hx, hall⟩
      exact ⟨⟨hx, hall i (Or.inl rfl)⟩, fun j hj => hall j (Or.inr hj)⟩

/-- Filtering on an extra `isSome` conjunct is absorbed by a subsequent
`filterMap` of the same option-valued field. -/
theorem filter_and_isSome_filterMap {α β : Type} (l : List α) (p : α → Bool)
    (f : α → Option β) :
    (l.filter (fun a => p a && (f a).isSome)).filterMap f = (l.filter p).filterMap f := by
  induction l with
  | nil => rfl
  | cons a t ih =>
    by_cases hp : p a = true
    · cases hf : f a with
      | none =>
        simp [List.filter_cons, hp, hf, List.filterMap_cons, ih]
      | some b =>
        simp [List.filter_cons, hp, hf, List.filterMap_cons, ih]
    · simp [List.filter_cons, Bool.eq_false_iff.mpr hp, ih, hp]

/-- The merged time entry keeps the record identity fields. -/
theorem mergeTimeEntry_id (input : UpdateTimeEntryInput) (now : Int) (old : TimeEntry) :
    (mergeTimeEntry input now old).id = old.id ∧
    (mergeTimeEntry input now old).user_id = old.user_id ∧
    (mergeTimeEntry input now old).created_at = old.created_at ∧
    (mergeTimeEntry input now old).updated_at = now := by
  simp only [mergeTimeEntry]
  split
  · exact ⟨rfl, rfl, rfl, rfl⟩
  · split
    · exact ⟨rfl, rfl, rfl, rfl⟩
    · exact ⟨rfl, rfl, rfl, rfl⟩

/-- The merged time entry resolves each payload field as provide-or-retain. -/
theorem mergeTimeEntry_fields (input : UpdateTimeEntryInput) (now : Int) (old : TimeEntry) :
    (mergeTimeEntry input now old).customer_id
        = (match input.customer_id with | some v => v | none => old.customer_id) ∧
    (mergeTimeEntry input now old).project_id
        = (match input.project_id with | some v => v | none => old.project_id) ∧
    (mergeTimeEntry input now old).description
        = (match input.description with | some d => d | none => old.description) ∧
    (mergeTimeEntry input now old).start_time
        = (match input.start_time with | some t => t | none => old.start_time) ∧
    (mergeTimeEntry input now old).end_time
        = (match input.end_time with | some v => v | none => old.end_time) ∧
    (mergeTimeEntry input now old).tags
        = (match input.tags with | some t => t | none => old.tags) := by
  simp only [mergeTimeEntry]
  split
  · exact ⟨rfl, rfl, rfl, rfl, rfl, rfl⟩
  · split
    · exact ⟨rfl, rfl, rfl, rfl, rfl, rfl⟩
    · exact ⟨rfl, rfl, rfl, rfl, rfl, rfl⟩

/-- Duration of the merged time entry when the effective end time is
present: the recomputed floor of the millisecond difference. -/
theorem mergeTimeEntry_duration_some (input : UpdateTimeEntryInput) (now : Int)
    (old : TimeEntry) (e : Int)
    (h : (match input.end_time with | some v => v | none => old.end_time) = some e) :
    (mergeTimeEntry input now old).duration_minutes
      = some ((e - (match input.start_time with | some t => t | none => old.start_time))
          / 60000) := by
  simp only [mergeTimeEntry, h]

/-- Duration of the merged time entry when `end_time` is explicitly null:
always cleared. -/
theorem mergeTimeEntry_duration_nullout (input : UpdateTimeEntryInput) (now : Int)
    (old : TimeEntry) (h : input.end_time = some none) :
    (mergeTimeEntry input now old).duration_minutes = none := by
  simp [mergeTimeEntry, h]

/-- C1: the spec and the source comment in `createSubscription` document
`max_customers = -1` / `max_projects = -1` (the enterprise defaults) as
unlimited, but `createCustomer` and `createProject` compare
`count >= max` without special-casing `-1`, so under an active `-1`-limit
subscription every creation fails with the limit error even at count zero.
This theorem evaluates the code at the failing input: the enterprise
defaults are `(-1, -1)`, the organization has zero customers (respectively
zero projects and a valid same-organization customer), and both creations
fail with their limit-exceeded messages. -/
theorem c1_unlimited_sentinel_code_bug :
    (createSubscription c1db0 c1subInput "sub1" 0).map
        (fun r => (r.1.max_customers, r.1.max_projects)) = Except.ok (-1, -1)
  ∧ c1dbCust.customers = []
  ∧ c1sub.status = SubStatus.active
  ∧ createCustomer c1dbCust c1custInput "u1" "c1" 0
      = Except.error "Customer limit reached. Maximum -1 customers allowed for enterprise plan"
  ∧ c1dbProj.projects = []
  ∧ (∃ c ∈ c1dbProj.customers, c.id = c1projInput.customer_id ∧
      c.organization_id = c1projInput.organization_id)
  ∧ createProject c1dbProj c1projInput "u1" "p1" 0
      = Except.error "Project limit exceeded for current subscription" :=
  ⟨rfl, rfl, rfl, rfl, rfl, ⟨c1customer, by decide, rfl, rfl⟩, rfl⟩

/-- C2 counterexample: `createProject` raises the same error message
"Customer not found or does not belong to the specified organization" both
when the referenced customer does not exist at all and when it belongs to a
different organization, so the two failures are not distinguishable, against
the claim. -/
theorem c2_counterexample :
    createProject c2db c2missingInput "u1" "p1" 0
      = Except.error "Customer not found or does not belong to the specified organization"
  ∧ createProject c2db c2wrongOrgInput "u1" "p1" 0
      = Except.error "Customer not found or does not belong to the specified organization"
  ∧ (∀ c ∈ c2db.customers, c.id ≠ c2missingInput.customer_id)
  ∧ (∃ c ∈ c2db.customers, c.id = c2wrongOrgInput.customer_id ∧
      c.organization_id ≠ c2wrongOrgInput.organization_id) :=
  ⟨rfl, rfl, by decide, ⟨c2customer, by decide, rfl, by decide⟩⟩

/-- C2 as amended: when the organization exists and no customer both has the
given id and belongs to the given organization — covering the nonexistent
customer and the wrong-organization customer alike — `createProject` fails,
in both cases with the single combined message
"Customer not found or does not belong to the specified organization". -/
theorem c2_amended_single_message (db : DB) (input : CreateProjectInput)
    (createdBy projectId : String) (now : Int) (org : Organization)
    (horg : db.organizations.find? (fun o => o.id == input.organization_id) = some org)
    (hcust : ∀ c ∈ db.customers,
      ¬(c.id = input.customer_id ∧ c.organization_id = input.organization_id)) :
    createProject db input createdBy projectId now
      = Except.error "Customer not found or does not belong to the specified organization" := by
  have h2 : db.customers.find? (fun c =>
      c.id == input.customer_id && c.organization_id == input.organization_id) = none := by
    rw [List.find?_eq_none]
    intro c hc
    simp only [Bool.and_eq_true, beq_iff_eq, not_and]
    intro h1 h2
    exact hcust c hc ⟨h1, h2⟩
  simp [createProject, horg, h2]

/-- Witness for the amended C2, at the concrete wrong-organization store. -/
theorem c2_amended_witness :
    createProject c2db c2wrongOrgInput "u1" "p1" 0
      = Except.error "Customer not found or does not belong to the specified organization" :=
  c2_amended_single_message c2db c2wrongOrgInput "u1" "p1" 0 c1org (by rfl) (by decide)

/-- C3: `createTimeEntry` stores
`duration_minutes = floor((end_time - start_time) / 60000)` when `end_time`
is provided and null when it is not (the `Option.map` of the floor
division), appending exactly that row; and for every existing entry, an
`updateTimeEntry` that explicitly sets `end_time` to null stores a null
`duration_minutes`, both in the returned record and in the table. -/
theorem c3_duration_create_and_null_out :
    (∀ (db : DB) (input : CreateTimeEntryInput) (uid eid : String) (now : Int),
      (createTimeEntry db input uid eid now).1.duration_minutes
          = input.end_time.map (fun e => (e - input.start_time) / 60000)
      ∧ (createTimeEntry db input uid eid now).2.time_entries
          = db.time_entries ++ [(createTimeEntry db input uid eid now).1])
  ∧ (∀ (db : DB) (input : UpdateTimeEntryInput) (now : Int) (te : TimeEntry) (dbr : DB),
      input.end_time = some none →
      updateTimeEntry db input now = Except.ok (te, dbr) →
        te.duration_minutes = none
        ∧ ∀ e ∈ dbr.time_entries, e.id = input.id → e.duration_minutes = none) := by
  constructor
  · intro db input uid eid now
    exact ⟨rfl, rfl⟩
  · intro db input now te dbr hnull hok
    unfold updateTimeEntry at hok
    cases hfind : db.time_entries.find? (fun e => e.id == input.id) with
    | none => rw [hfind] at hok; cases hok
    | some old =>
      rw [hfind] at hok
      simp only [Except.ok.injEq, Prod.mk.injEq] at hok
      obtain ⟨hte, hdbr⟩ := hok
      constructor
      · rw [← hte]
        exact mergeTimeEntry_duration_nullout input now old hnull
      · intro e he hid
        rw [← hdbr] at he
        simp only [List.mem_map] at he
        obtain ⟨e0, _, heq⟩ := he
        by_cases hcase : (e0.id == input.id) = true
        · rw [if_pos hcase] at heq
          rw [← heq]
          exact mergeTimeEntry_duration_nullout input now old hnull
        · rw [if_neg hcase] at heq
          rw [← heq] at hid
          exact absurd (beq_iff_eq.mpr hid) hcase

/-- Witness for C3 at a concrete store: a 150-second interval floors to two
minutes on creation, and the explicit null-out clears the stored duration. -/
theorem c3_witness :
    ((createTimeEntry dbEmpty c3createInput "u1" "t0" 5).1.duration_minutes
        = c3createInput.end_time.map (fun e => (e - c3createInput.start_time) / 60000))
  ∧ c3updated.duration_minutes = none
  ∧ (∀ e ∈ c3dbr.time_entries, e.id = c3input.id → e.duration_minutes = none) := by
  refine ⟨(c3_duration_create_and_null_out.1 dbEmpty c3createInput "u1" "t0" 5).1, ?_, ?_⟩
  · exact (c3_duration_create_and_null_out.2 c3db c3input 7 c3updated c3dbr rfl (by rfl)).1
  · exact (c3_duration_create_and_null_out.2 c3db c3input 7 c3updated c3dbr rfl (by rfl)).2

/-- C4: after `deleteCustomer`, no time entry references the customer or any
project that belonged to it and no project references the customer, while
every unrelated customer, project and time entry survives and the other
tables are untouched; after `deleteProject`, no time entry references the
project and unrelated entries survive. -/
theorem c4_cascading_delete (db : DB) (cid pid2 : String) :
    (∀ e ∈ (deleteCustomer db cid).2.time_entries, e.customer_id ≠ some cid)
  ∧ (∀ e ∈ (deleteCustomer db cid).2.time_entries,
      ∀ p ∈ db.projects, p.customer_id = cid → e.project_id ≠ some p.id)
  ∧ (∀ p ∈ (deleteCustomer db cid).2.projects, p.customer_id ≠ cid)
  ∧ (∀ c ∈ db.customers, c.id ≠ cid → c ∈ (deleteCustomer db cid).2.customers)
  ∧ (∀ p ∈ db.projects, p.customer_id ≠ cid → p ∈ (deleteCustomer db cid).2.projects)
  ∧ (∀ e ∈ db.time_entries, e.customer_id ≠ some cid →
      (∀ p ∈ db.projects, p.customer_id = cid → e.project_id ≠ some p.id) →
      e ∈ (deleteCustomer db cid).2.time_entries)
  ∧ (deleteCustomer db cid).2.users = db.users
  ∧ (deleteCustomer db cid).2.organizations = db.organizations
  ∧ (deleteCustomer db cid).2.subscriptions = db.subscriptions
  ∧ (∀ e ∈ (deleteProject db pid2).2.time_entries, e.project_id ≠ some pid2)
  ∧ (∀ e ∈ db.time_entries, e.project_id ≠ some pid2 →
      e ∈ (deleteProject db pid2).2.time_entries) := by
  have hmem : ∀ e : TimeEntry, e ∈ (deleteCustomer db cid).2.time_entries ↔
      (e ∈ db.time_entries ∧ e.customer_id ≠ some cid) ∧
        ∀ p ∈ db.projects, p.customer_id = cid → e.project_id ≠ some p.id := by
    intro e
    simp only [deleteCustomer, mem_foldl_filter, List.mem_filter, List.mem_map, bne_iff_ne,
      ne_eq, beq_iff_eq]
    constructor
    · rintro ⟨⟨he, hne⟩, hall⟩
      refine ⟨⟨he, hne⟩, ?_⟩
      intro p hp hpc
      exact hall p.id ⟨p, ⟨hp, hpc⟩, rfl⟩
    · rintro ⟨⟨he, hne⟩, hall⟩
      refine ⟨⟨he, hne⟩, ?_⟩
      rintro i ⟨p, ⟨hp, hpc⟩, rfl⟩
      exact hall p hp hpc
  refine ⟨?_, ?_, ?_, ?_, ?_, ?_, rfl, rfl, rfl, ?_, ?_⟩
  · intro e he
    exact ((hmem e).mp he).1.2
  · intro e he
    exact ((hmem e).mp he).2
  · intro p hp
    simp only [deleteCustomer, List.mem_filter, bne_iff_ne, ne_eq] at hp
    exact hp.2
  · intro c hc hne
    simp only [deleteCustomer, List.mem_filter, bne_iff_ne, ne_eq]
    exact ⟨hc, hne⟩
  · intro p hp hne
    simp only [deleteCustomer, List.mem_filter, bne_iff_ne, ne_eq]
    exact ⟨hp, hne⟩
  · intro e he h1 h2
    exact (hmem e).mpr ⟨⟨he, h1⟩, h2⟩
  · intro e he
    simp only [deleteProject, List.mem_filter, bne_iff_ne, ne_eq] at he
    exact he.2
  · intro e he hne
    simp only [deleteProject, List.mem_filter, bne_iff_ne, ne_eq]
    exact ⟨he, hne⟩

/-- Witness for C4: in the concrete cascade store, the surviving unrelated
entry is still present and the doomed references are gone. -/
theorem c4_witness :
    c4entryKept ∈ (deleteCustomer c4db "cD").2.time_entries
  ∧ c4other ∈ (deleteCustomer c4db "cD").2.customers
  ∧ (∀ e ∈ (deleteCustomer c4db "cD").2.time_entries, e.customer_id ≠ some "cD")
  ∧ (∀ p ∈ (deleteCustomer c4db "cD").2.projects, p.customer_id ≠ "cD") := by
  have h := c4_cascading_delete c4db "cD" "pD"
  refine ⟨?_, ?_, h.1, h.2.2.1⟩
  · exact h.2.2.2.2.2.1 c4entryKept (by decide) (by decide) (by decide)
  · exact h.2.2.2.1 c4other (by decide) (by decide)

/-- C5: each of the three delete handlers returns true exactly when a row
with the given id existed (and was removed), and a second identical call
right after returns false; the embedded handlers are total functions, so a
missing id is a defined false result, never a thrown error. -/
theorem c5_delete_returns_existed (db : DB) (idv : String) :
    ((deleteCustomer db idv).1 = true ↔ ∃ c ∈ db.customers, c.id = idv)
  ∧ ((deleteProject db idv).1 = true ↔ ∃ p ∈ db.projects, p.id = idv)
  ∧ ((deleteTimeEntry db idv).1 = true ↔ ∃ e ∈ db.time_entries, e.id = idv)
  ∧ (deleteCustomer (deleteCustomer db idv).2 idv).1 = false
  ∧ (deleteProject (deleteProject db idv).2 idv).1 = false
  ∧ (deleteTimeEntry (deleteTimeEntry db idv).2 idv).1 = false := by
  refine ⟨?_, ?_, ?_, ?_, ?_, ?_⟩
  · simp [deleteCustomer, List.length_pos, List.filter_eq_nil_iff]
  · simp [deleteProject, List.length_pos, List.filter_eq_nil_iff]
  · simp [deleteTimeEntry, List.length_pos, List.filter_eq_nil_iff]
  · simp [deleteCustomer, List.length_pos, List.filter_eq_nil_iff, List.mem_filter]
  · simp [deleteProject, List.length_pos, List.filter_eq_nil_iff, List.mem_filter]
  · simp [deleteTimeEntry, List.length_pos, List.filter_eq_nil_iff, List.mem_filter]

/-- Witness for C5 on the concrete cascade store: deleting the existing
customer reports true, deleting a missing id reports false. -/
theorem c5_witness :
    ((deleteCustomer c4db "cD").1 = true)
  ∧ ((deleteCustomer c4db "nope").1 = false)
  ∧ (deleteCustomer (deleteCustomer c4db "cD").2 "cD").1 = false := by
  refine ⟨?_, ?_, (c5_delete_returns_existed c4db "cD").2.2.2.1⟩
  · exact (c5_delete_returns_existed c4db "cD").1.mpr ⟨c4customer, by decide, rfl⟩
  · have h := (c5_delete_returns_existed c4db "nope").1
    by_contra hb
    simp only [Bool.not_eq_false] at hb
    obtain ⟨c, hc, hid⟩ := h.mp hb
    have hcc : c = c4customer ∨ c = c4other := by
      simpa [c4db, dbEmpty] using hc
    rcases hcc with rfl | rfl
    · exact absurd hid (by decide)
    · exact absurd hid (by decide)

/-- C8 counterexample: an `updateTimeEntry` payload that provides only
`end_time` changes the stored `duration_minutes` — a field that is not part
of any update payload — from one minute to two, so it is not true that only
the explicitly provided fields plus `updated_at` change. -/
theorem c8_counterexample :
    updateTimeEntry c8db c8input 9 = Except.ok (c8updated, c8dbr)
  ∧ c8input.customer_id = none
  ∧ c8input.project_id = none
  ∧ c8input.description = none
  ∧ c8input.start_time = none
  ∧ c8input.tags = none
  ∧ c8entry.duration_minutes = some 1
  ∧ c8updated.duration_minutes = some 2 :=
  ⟨rfl, rfl, rfl, rfl, rfl, rfl, rfl, rfl⟩

/-- C8 as amended: for the partial-update handlers, every payload field that
is absent keeps exactly its pre-update value and the non-updatable identity
fields never change; besides the provided fields only `updated_at` and — for
time entries — the derived `duration_minutes` may change, and rows with a
different id are written back unchanged. -/
theorem c8_amended_frame :
    (∀ (db : DB) (input : UpdateTimeEntryInput) (now : Int) (te : TimeEntry) (dbr : DB)
      (old : TimeEntry),
      db.time_entries.find? (fun e => e.id == input.id) = some old →
      updateTimeEntry db input now = Except.ok (te, dbr) →
        (input.customer_id = none → te.customer_id = old.customer_id)
      ∧ (input.project_id = none → te.project_id = old.project_id)
      ∧ (input.description = none → te.description = old.description)
      ∧ (input.start_time = none → te.start_time = old.start_time)
      ∧ (input.end_time = none → te.end_time = old.end_time)
      ∧ (input.tags = none → te.tags = old.tags)
      ∧ te.id = old.id ∧ te.user_id = old.user_id ∧ te.created_at = old.created_at
      ∧ te.updated_at = now
      ∧ dbr.time_entries
          = db.time_entries.map (fun e => if e.id == input.id then te else e))
  ∧ (∀ (db : DB) (input : UpdateSubscriptionInput) (now : Int) (sub : Subscription)
      (dbr : DB) (old : Subscription),
      db.subscriptions.find? (fun s => s.id == input.id) = some old →
      updateSubscription db input now = Except.ok (sub, dbr) →
        (input.plan = none → sub.plan = old.plan)
      ∧ (input.status = none → sub.status = old.status)
      ∧ (input.max_customers = none → sub.max_customers = old.max_customers)
      ∧ (input.max_projects = none → sub.max_projects = old.max_projects)
      ∧ (input.expires_at = none → sub.expires_at = old.expires_at)
      ∧ sub.id = old.id ∧ sub.user_id = old.user_id ∧ sub.created_at = old.created_at
      ∧ sub.updated_at = now
      ∧ dbr.subscriptions
          = db.subscriptions.map (fun s => if s.id == input.id then sub else s)) := by
  constructor
  · intro db input now te dbr old hfind hok
    unfold updateTimeEntry at hok
    rw [hfind] at hok
    simp only [Except.ok.injEq, Prod.mk.injEq] at hok
    obtain ⟨hte, hdbr⟩ := hok
    subst hte
    obtain ⟨hc, hp, hd, hs, he, ht⟩ := mergeTimeEntry_fields input now old
    obtain ⟨hid, hu, hcr, hup⟩ := mergeTimeEntry_id input now old
    refine ⟨?_, ?_, ?_, ?_, ?_, ?_, hid, hu, hcr, hup, ?_⟩
    · intro h0; rw [hc, h0]
    · intro h0; rw [hp, h0]
    · intro h0; rw [hd, h0]
    · intro h0; rw [hs, h0]
    · intro h0; rw [he, h0]
    · intro h0; rw [ht, h0]
    · rw [← hdbr]
  · intro db input now sub dbr old hfind hok
    unfold updateSubscription at hok
    rw [hfind] at hok
    simp only [Except.ok.injEq, Prod.mk.injEq] at hok
    obtain ⟨hsub, hdbr⟩ := hok
    subst hsub
    refine ⟨?_, ?_, ?_, ?_, ?_, rfl, rfl, rfl, rfl, ?_⟩
    · intro h0; simp [mergeSubscription, h0]
    · intro h0; simp [mergeSubscription, h0]
    · intro h0; simp [mergeSubscription, h0]
    · intro h0; simp [mergeSubscription, h0]
    · intro h0; simp [mergeSubscription, h0]
    · rw [← hdbr]

/-- Witness for the amended C8 at concrete stores: the `end_time`-only time
entry update retains every absent field, and the `status`-only subscription
update retains the plan and the limits. -/
theorem c8_amended_witness :
    (c8updated.customer_id = c8entry.customer_id
      ∧ c8updated.description = c8entry.description
      ∧ c8updated.start_time = c8entry.start_time
      ∧ c8updated.tags = c8entry.tags)
  ∧ (mergeSubscription c8subInput 11 c8sub).plan = c8sub.plan
  ∧ (mergeSubscription c8subInput 11 c8sub).max_customers = c8sub.max_customers := by
  have h1 := c8_amended_frame.1 c8db c8input 9 c8updated c8dbr c8entry (by rfl) (by rfl)
  have h2 := c8_amended_frame.2 c8subDb c8subInput 11 (mergeSubscription c8subInput 11 c8sub)
    { c8subDb with subscriptions :=
        c8subDb.subscriptions.map (fun s =>
          if s.id == c8subInput.id then mergeSubscription c8subInput 11 c8sub else s) }
    c8sub (by rfl) (by rfl)
  exact ⟨⟨h1.1 rfl, h1.2.2.1 rfl, h1.2.2.2.1 rfl, h1.2.2.2.2.2.1 rfl⟩,
    h2.1 rfl, h2.2.2.1 rfl⟩

/-- C9: a successful `createUser` appends, besides the user row, exactly one
organization named `"{name}'s Organization"` owned by the new user and
exactly one subscription for the new user with the free plan, active status,
limits 3/3 and no expiry. -/
theorem c9_create_user_defaults (db : DB) (input : CreateUserInput)
    (userId organizationId subscriptionId : String) (now : Int) (u : User) (dbr : DB)
    (h : createUser db input userId organizationId subscriptionId now
      = Except.ok (u, dbr)) :
    dbr.organizations = db.organizations ++
      [{ id := organizationId, name := input.name ++ orgSuffix, owner_id := userId,
         created_at := now, updated_at := now }]
  ∧ dbr.subscriptions = db.subscriptions ++
      [{ id := subscriptionId, user_id := userId, plan := Plan.free,
         status := SubStatus.active, max_customers := 3, max_projects := 3,
         created_at := now, updated_at := now, expires_at := none }]
  ∧ dbr.users = db.users ++ [u]
  ∧ u.id = userId ∧ u.email = input.email ∧ u.name = input.name
  ∧ dbr.customers = db.customers ∧ dbr.projects = db.projects
  ∧ dbr.time_entries = db.time_entries := by
  unfold createUser at h
  by_cases hdup : (db.users.any (fun u2 => u2.email == input.email)) = true
  · rw [if_pos hdup] at h
    cases h
  · rw [if_neg hdup] at h
    simp only [Except.ok.injEq, Prod.mk.injEq] at h
    obtain ⟨hu, hdbr⟩ := h
    subst hu
    subst hdbr
    exact ⟨rfl, rfl, rfl, rfl, rfl, rfl, rfl, rfl, rfl⟩

/-- Witness for C9 at the empty store and a concrete signup. -/
theorem c9_witness :
    c9dbr.organizations = dbEmpty.organizations ++
      [{ id := "o9", name := c9input.name ++ orgSuffix, owner_id := "u9",
         created_at := 4, updated_at := 4 }]
  ∧ c9dbr.subscriptions = dbEmpty.subscriptions ++
      [{ id := "s9", user_id := "u9", plan := Plan.free, status := SubStatus.active,
         max_customers := 3, max_projects := 3, created_at := 4, updated_at := 4,
         expires_at := none }] := by
  have h := c9_create_user_defaults dbEmpty c9input "u9" "o9" "s9" 4 c9user c9dbr (by rfl)
  exact ⟨h.1, h.2.1⟩

/-- C10: neither creation nor update validates the time order.  When the
provided `end_time` precedes `start_time`, `createTimeEntry` succeeds and
stores the negative floor of the millisecond difference over 60000; when the
effective pair of an update is reversed, `updateTimeEntry` succeeds on an
existing entry and stores the negative recomputed duration. -/
theorem c10_negative_duration :
    (∀ (db : DB) (input : CreateTimeEntryInput) (uid eid : String) (now endv : Int),
      input.end_time = some endv → endv < input.start_time →
        (createTimeEntry db input uid eid now).1.duration_minutes
            = some ((endv - input.start_time) / 60000)
        ∧ (endv - input.start_time) / 60000 < 0)
  ∧ (∀ (db : DB) (input : UpdateTimeEntryInput) (now : Int) (old : TimeEntry) (endv : Int),
      db.time_entries.find? (fun e => e.id == input.id) = some old →
      (match input.end_time with | some v => v | none => old.end_time) = some endv →
      endv < (match input.start_time with | some t => t | none => old.start_time) →
        updateTimeEntry db input now = Except.ok (mergeTimeEntry input now old,
          { db with time_entries :=
              db.time_entries.map (fun e =>
                if e.id == input.id then mergeTimeEntry input now old else e) })
        ∧ (mergeTimeEntry input now old).duration_minutes
            = some ((endv -
                (match input.start_time with | some t => t | none => old.start_time))
                / 60000)
        ∧ (endv - (match input.start_time with | some t => t | none => old.start_time))
            / 60000 < 0) := by
  constructor
  · intro db input uid eid now endv hend hlt
    constructor
    · simp [createTimeEntry, hend]
    · omega
  · intro db input now old endv hfind hend hlt
    refine ⟨?_, mergeTimeEntry_duration_some input now old endv hend, by omega⟩
    unfold updateTimeEntry
    rw [hfind]

/-- Witness for C10: creating with `end_time` 90 seconds before
`start_time` stores minus two minutes, and moving `start_time` past the
stored end of the concrete one-minute entry stores minus four minutes. -/
theorem c10_witness :
    ((createTimeEntry dbEmpty c10createInput "u1" "t0" 5).1.duration_minutes
        = some ((0 - c10createInput.start_time) / 60000)
      ∧ (0 - c10createInput.start_time) / 60000 < 0)
  ∧ ((mergeTimeEntry c10updateInput 13 c8entry).duration_minutes
        = some ((60000 - (300000 : Int)) / 60000)
      ∧ (60000 - (300000 : Int)) / 60000 < 0) := by
  constructor
  · exact c10_negative_duration.1 dbEmpty c10createInput "u1" "t0" 5 0 rfl (by decide)
  · have h := c10_negative_duration.2 c8db c10updateInput 13 c8entry 60000 (by rfl) (by rfl)
      (by decide)
    exact ⟨h.2.1, h.2.2⟩

/-- Window totals of the aggregator coincide with the specification-side
sum: the extra `isNotNull` SQL filter is absorbed by summing only non-null
durations. -/
theorem window_total_eq (db : DB) (u : String) (lo hi : Int) :
    ((db.time_entries.filter (windowRow u lo hi)).filterMap
        (fun e => e.duration_minutes)).sum
      = specWindowTotal db u lo hi := by
  unfold specWindowTotal
  have hflt : db.time_entries.filter (windowRow u lo hi)
      = db.time_entries.filter (fun e =>
          (e.user_id == u && decide (lo ≤ e.start_time) && decide (e.start_time ≤ hi)) &&
            e.duration_minutes.isSome) := by
    apply List.filter_congr
    intro e _
    rfl
  rw [hflt, filter_and_isSome_filterMap]

/-- C6: the three dashboard totals are the sums of the non-null
`duration_minutes` over the user's entries whose `start_time` lies in
`[startOfDay(now), now]`, `[startOfWeek(now), now]` and
`[startOfMonth(now), now]` respectively; the week window starts on the most
recent Sunday (its start is a day boundary with day-of-week 0, at most six
days before today's start); and `recentEntries` is the user's entries —
null-duration ones included, since no duration filter is applied — ordered
by `start_time` descending and capped at 10. -/
theorem c6_dashboard_windows (db : DB) (u o : String) (now : Int) :
    (getDashboardStats db u o now).totalTimeToday
        = specWindowTotal db u (startOfDayMs now) now
  ∧ (getDashboardStats db u o now).totalTimeThisWeek
        = specWindowTotal db u (startOfWeekMs now) now
  ∧ (getDashboardStats db u o now).totalTimeThisMonth
        = specWindowTotal db u (startOfMonthMs now) now
  ∧ jsGetDay (startOfWeekMs now) = 0
  ∧ startOfWeekMs now ≤ startOfDayMs now
  ∧ startOfDayMs now < startOfWeekMs now + 7 * msPerDay
  ∧ (getDashboardStats db u o now).recentEntries
      = (sortEntriesDesc (db.time_entries.filter (fun e => e.user_id == u))).take 10
  ∧ List.Pairwise (fun a b => b.start_time ≤ a.start_time)
      (getDashboardStats db u o now).recentEntries
  ∧ ∀ e ∈ (getDashboardStats db u o now).recentEntries, e.user_id = u := by
  letI : IsTotal TimeEntry (fun a b => b.start_time ≤ a.start_time) :=
    ⟨fun a b => le_total b.start_time a.start_time⟩
  letI : IsTrans TimeEntry (fun a b => b.start_time ≤ a.start_time) :=
    ⟨fun a b c hab hbc => le_trans hbc hab⟩
  refine ⟨?_, ?_, ?_, ?_, ?_, ?_, rfl, ?_, ?_⟩
  · exact window_total_eq db u (startOfDayMs now) now
  · exact window_total_eq db u (startOfWeekMs now) now
  · exact window_total_eq db u (startOfMonthMs now) now
  · simp only [startOfWeekMs, startOfDayMs, jsGetDay, msPerDay]
    omega
  · simp only [startOfWeekMs, startOfDayMs, jsGetDay, msPerDay]
    omega
  · simp only [startOfWeekMs, startOfDayMs, jsGetDay, msPerDay]
    omega
  · exact List.Pairwise.sublist (List.take_sublist 10 _)
      (List.sorted_insertionSort _ _)
  · intro e he
    have h1 := List.mem_of_mem_take he
    rw [sortEntriesDesc, List.mem_insertionSort] at h1
    exact beq_iff_eq.mp (List.mem_filter.mp h1).2

/-- Witness for C6 at the concrete dashboard store: the month total matches
the specification sum, and the still-running null-duration entry appears in
`recentEntries` and belongs to the user. -/
theorem c6_witness :
    (getDashboardStats c6db "u1" "org1" c6now).totalTimeThisMonth
        = specWindowTotal c6db "u1" (startOfMonthMs c6now) c6now
  ∧ c6entryActive ∈ (getDashboardStats c6db "u1" "org1" c6now).recentEntries
  ∧ c6entryActive.user_id = "u1" := by
  have h := c6_dashboard_windows c6db "u1" "org1" c6now
  exact ⟨h.2.2.1, by decide, h.2.2.2.2.2.2.2.2 c6entryActive (by decide)⟩


/-- Filtering after mapping over a filtered list fuses into a single filter
before the map. -/
theorem filter_map_pair {α β : Type} (l : List α) (p : α → Bool) (f : α → β)
    (q : β → Bool) :
    ((l.filter p).map f).filter q = (l.filter (fun a => p a && q (f a))).map f := by
  induction l with
  | nil => rfl
  | cons a t ih =>
    cases hp : p a <;> cases hq : q (f a) <;>
      simp [List.filter_cons, List.map_cons, hp, hq, ih]

/-- A filter that can only select elements sharing the key of a member `c`
of a key-unique list returns exactly `[c]` when `c` itself passes. -/
theorem filter_eq_singleton_of_nodup {P : Type} (pid : P → String) (parents : List P)
    (hn : (parents.map pid).Nodup) (c : P) (hc : c ∈ parents) (q : P → Bool)
    (hqc : q c = true) (himp : ∀ x ∈ parents, q x = true → pid x = pid c) :
    parents.filter q = [c] := by
  induction parents with
  | nil => cases hc
  | cons a t ih =>
    rw [List.map_cons, List.nodup_cons] at hn
    obtain ⟨hna, hnt⟩ := hn
    rcases List.mem_cons.mp hc with rfl | hct
    · have hrest : ∀ x ∈ t, ¬ q x = true := by
        intro x hx hqx
        have hx2 : pid c ∈ t.map pid := by
          rw [← himp x (List.mem_cons_of_mem c hx) hqx]
          exact List.mem_map_of_mem pid hx
        exact hna hx2
      simp only [List.filter_cons, hqc, if_pos]
      rw [List.filter_eq_nil_iff.mpr hrest]
    · have hqa : q a = false := by
        by_contra hq
        simp only [Bool.not_eq_false] at hq
        have hpa : pid a = pid c := himp a (List.mem_cons_self a t) hq
        exact hna (hpa ▸ List.mem_map_of_mem pid hct)
      simp only [List.filter_cons, hqa]
      exact ih hnt hct (fun x hx hqx => himp x (List.mem_cons_of_mem a hx) hqx)

/-- Membership characterisation of the joined and where-filtered rows. -/
theorem mem_joinRows {P : Type} (entries : List TimeEntry) (parents : List P)
    (fk : TimeEntry → Option String) (pid porg : P → String) (u o : String) (lo hi : Int)
    (e : TimeEntry) (c : P) :
    ((e, c) ∈ joinRows entries parents fk pid porg u o lo hi) ↔
      (e ∈ entries ∧ c ∈ parents ∧ fk e = some (pid c) ∧
        windowRow u lo hi e = true ∧ porg c = o) := by
  unfold joinRows
  simp only [List.mem_filter, List.mem_flatMap, List.mem_map, Prod.mk.injEq]
  constructor
  · rintro ⟨⟨e2, he2, c2, hc2, he, hc⟩, hcond⟩
    subst he
    subst hc
    simp only [Bool.and_eq_true, beq_iff_eq] at hcond hc2
    exact ⟨he2, hc2.1, hc2.2, hcond.1.1, hcond.1.2⟩
  · rintro ⟨he, hc, hfk, hw, horg⟩
    refine ⟨⟨e, he, c, ⟨hc, beq_iff_eq.mpr hfk⟩, rfl, rfl⟩, ?_⟩
    simp only [Bool.and_eq_true, beq_iff_eq]
    exact ⟨⟨hw, horg⟩, by rw [hfk]; rfl⟩

/-- Filtering the joined rows down to the key of an in-organization parent
`c` with a unique id yields exactly the user's window entries referencing
`c`, each paired with `c`. -/
theorem joinRows_filter_key {P : Type} (entries : List TimeEntry) (parents : List P)
    (fk : TimeEntry → Option String) (pid porg pname : P → String) (u o : String)
    (lo hi : Int) (hn : (parents.map pid).Nodup) (c : P) (hc : c ∈ parents)
    (ho : porg c = o) :
    (joinRows entries parents fk pid porg u o lo hi).filter
        (fun r => pid r.2 == pid c && pname r.2 == pname c)
      = (entries.filter (fun e => windowRow u lo hi e && fk e == some (pid c))).map
          (fun e => (e, c)) := by
  induction entries with
  | nil => rfl
  | cons e es ih =>
    unfold joinRows at ih ⊢
    simp only [List.flatMap_cons, List.filter_append]
    rw [ih]
    have hhead :
        ((((parents.filter (fun c2 => fk e == some (pid c2))).map
            (fun c2 => (e, c2))).filter
          (fun r => windowRow u lo hi r.1 && porg r.2 == o && (fk r.1).isSome)).filter
          (fun r => pid r.2 == pid c && pname r.2 == pname c))
        = if (windowRow u lo hi e && fk e == some (pid c)) = true
            then [(e, c)] else [] := by
      rw [filter_map_pair, filter_map_pair]
      by_cases hcase : (windowRow u lo hi e && fk e == some (pid c)) = true
      · rw [if_pos hcase]
        simp only [Bool.and_eq_true, beq_iff_eq] at hcase
        obtain ⟨hw, hfk⟩ := hcase
        have hsingle := filter_eq_singleton_of_nodup pid parents hn c hc
          (fun a => ((fun c2 => fk e == some (pid c2)) a &&
            (fun r : TimeEntry × P =>
              windowRow u lo hi r.1 && porg r.2 == o && (fk r.1).isSome)
              ((fun c2 => (e, c2)) a)) &&
            (fun r : TimeEntry × P => pid r.2 == pid c && pname r.2 == pname c)
              ((fun c2 => (e, c2)) a))
          (by simp [hw, ho, hfk])
          (by
            intro x hx hqx
            simp only [Bool.and_eq_true, beq_iff_eq] at hqx
            exact hqx.2.1)
        rw [hsingle]
        rfl
      · rw [if_neg hcase]
        have hnil : ∀ x ∈ parents,
            ¬ ((fun a => ((fun c2 => fk e == some (pid c2)) a &&
              (fun r : TimeEntry × P =>
                windowRow u lo hi r.1 && porg r.2 == o && (fk r.1).isSome)
                ((fun c2 => (e, c2)) a)) &&
              (fun r : TimeEntry × P => pid r.2 == pid c && pname r.2 == pname c)
                ((fun c2 => (e, c2)) a)) x) = true := by
          intro x hx hqx
          simp only [Bool.and_eq_true, beq_iff_eq] at hqx
          apply hcase
          simp only [Bool.and_eq_true, beq_iff_eq]
          exact ⟨hqx.1.2.1.1, by rw [hqx.1.1, hqx.2.1]⟩
        rw [List.filter_eq_nil_iff.mpr hnil]
        rfl
    rw [hhead]
    by_cases hq : (windowRow u lo hi e && fk e == some (pid c)) = true
    · rw [if_pos hq]
      simp [List.filter_cons, hq]
    · rw [if_neg hq]
      rw [Bool.not_eq_true] at hq
      simp [List.filter_cons, hq]

/-- The group total of an in-organization parent with a unique id equals the
sum of the non-null durations of the user's window entries referencing it. -/
theorem rowTotal_eq {P : Type} (entries : List TimeEntry) (parents : List P)
    (fk : TimeEntry → Option String) (pid porg pname : P → String) (u o : String)
    (lo hi : Int) (hn : (parents.map pid).Nodup) (c : P) (hc : c ∈ parents)
    (ho : porg c = o) :
    rowTotal (joinRows entries parents fk pid porg u o lo hi) pid pname (pid c, pname c)
      = ((entries.filter (fun e => e.user_id == u && fk e == some (pid c) &&
          decide (lo ≤ e.start_time) && decide (e.start_time ≤ hi))).filterMap
          (fun e => e.duration_minutes)).sum := by
  unfold rowTotal
  rw [joinRows_filter_key entries parents fk pid porg pname u o lo hi hn c hc ho]
  rw [List.filterMap_map]
  have hb : ((fun r : TimeEntry × P => r.1.duration_minutes) ∘ (fun e => (e, c)))
      = fun e : TimeEntry => e.duration_minutes := rfl
  rw [hb]
  have hbool : ∀ a b c2 d f : Bool, (((a && b && c2) && d) && f)
      = ((((a && f) && b) && c2) && d) := by decide
  have hflt : entries.filter (fun e => windowRow u lo hi e && fk e == some (pid c))
      = entries.filter (fun e => (e.user_id == u && fk e == some (pid c) &&
          decide (lo ≤ e.start_time) && decide (e.start_time ≤ hi)) &&
          e.duration_minutes.isSome) := by
    apply List.filter_congr
    intro e _
    simp only [windowRow]
    exact hbool (e.user_id == u) (decide (lo ≤ e.start_time))
      (decide (e.start_time ≤ hi)) e.duration_minutes.isSome (fk e == some (pid c))
  rw [hflt, filter_and_isSome_filterMap]

/-- The top-5 ranking of grouped rows: capped at 5, sorted descending by
total minutes, and each emitted group carries the key of one of its rows
together with the group total. -/
theorem topGroups_spec {P : Type} (rows : List (TimeEntry × P)) (pid pname : P → String) :
    (topGroups rows pid pname).length ≤ 5
  ∧ List.Pairwise (fun a b : String × String × Int => b.2.2 ≤ a.2.2)
      (topGroups rows pid pname)
  ∧ ∀ g ∈ topGroups rows pid pname, ∃ r ∈ rows, g.1 = pid r.2 ∧ g.2.1 = pname r.2 ∧
      g.2.2 = rowTotal rows pid pname (pid r.2, pname r.2) := by
  letI : IsTotal (String × String × Int) (fun a b => b.2.2 ≤ a.2.2) :=
    ⟨fun a b => le_total b.2.2 a.2.2⟩
  letI : IsTrans (String × String × Int) (fun a b => b.2.2 ≤ a.2.2) :=
    ⟨fun a b c hab hbc => le_trans hbc hab⟩
  simp only [topGroups]
  refine ⟨?_, ?_, ?_⟩
  · exact List.length_take_le 5 _
  · exact List.Pairwise.sublist (List.take_sublist 5 _) (List.sorted_insertionSort _ _)
  · intro g hg
    have h1 := List.mem_of_mem_take hg
    rw [List.mem_insertionSort, List.mem_map] at h1
    obtain ⟨k, hk, hkeq⟩ := h1
    rw [List.mem_dedup, List.mem_map] at hk
    obtain ⟨r, hr, hreq⟩ := hk
    subst hkeq
    cases hreq
    exact ⟨r, hr, rfl, rfl, rfl⟩


/-- Sort-then-cap completeness: a member of the list either survives into
the descending top 5, or the top 5 is full and every kept element has at
least its total. -/
theorem sort_take_complete (l : List (String × String × Int)) (x : String × String × Int)
    (hx : x ∈ l) :
    x ∈ (List.insertionSort (fun a b : String × String × Int => b.2.2 ≤ a.2.2) l).take 5
  ∨ (((List.insertionSort (fun a b : String × String × Int => b.2.2 ≤ a.2.2) l).take 5).length
        = 5
    ∧ ∀ g ∈ (List.insertionSort
        (fun a b : String × String × Int => b.2.2 ≤ a.2.2) l).take 5,
        x.2.2 ≤ g.2.2) := by
  letI : IsTotal (String × String × Int) (fun a b => b.2.2 ≤ a.2.2) :=
    ⟨fun a b => le_total b.2.2 a.2.2⟩
  letI : IsTrans (String × String × Int) (fun a b => b.2.2 ≤ a.2.2) :=
    ⟨fun a b c hab hbc => le_trans hbc hab⟩
  have hmem : x ∈
      (List.insertionSort (fun a b : String × String × Int => b.2.2 ≤ a.2.2) l).take 5 ++
      (List.insertionSort (fun a b : String × String × Int => b.2.2 ≤ a.2.2) l).drop 5 := by
    rw [List.take_append_drop]
    exact (List.mem_insertionSort _).mpr hx
  rcases List.mem_append.mp hmem with hin | hout
  · exact Or.inl hin
  · right
    have hpw : List.Pairwise (fun a b : String × String × Int => b.2.2 ≤ a.2.2)
        ((List.insertionSort (fun a b : String × String × Int => b.2.2 ≤ a.2.2) l).take 5 ++
         (List.insertionSort (fun a b : String × String × Int => b.2.2 ≤ a.2.2) l).drop 5) := by
      rw [List.take_append_drop]
      exact List.sorted_insertionSort _ _
    obtain ⟨-, -, hcross⟩ := List.pairwise_append.mp hpw
    refine ⟨?_, fun g hg => hcross g hg x hout⟩
    have h0 : 0 < ((List.insertionSort
        (fun a b : String × String × Int => b.2.2 ≤ a.2.2) l).drop 5).length :=
      List.length_pos.mpr (List.ne_nil_of_mem hout)
    rw [List.length_drop] at h0
    rw [List.length_take]
    omega

/-- Completeness of the top-5 grouping: the key of every joined row either
appears in the emitted ranking (with its name and group total), or the
ranking is full with five groups that all total at least as much. -/
theorem topGroups_complete {P : Type} (rows : List (TimeEntry × P)) (pid pname : P → String)
    (r : TimeEntry × P) (hr : r ∈ rows) :
    (∃ g ∈ topGroups rows pid pname, g.1 = pid r.2 ∧ g.2.1 = pname r.2 ∧
        g.2.2 = rowTotal rows pid pname (pid r.2, pname r.2))
  ∨ ((topGroups rows pid pname).length = 5 ∧
      ∀ g ∈ topGroups rows pid pname,
        rowTotal rows pid pname (pid r.2, pname r.2) ≤ g.2.2) := by
  have hk : (pid r.2, pname r.2) ∈ (rows.map (fun r2 => (pid r2.2, pname r2.2))).dedup := by
    rw [List.mem_dedup]
    exact List.mem_map_of_mem _ hr
  have hg : ((pid r.2, pname r.2).1, (pid r.2, pname r.2).2,
        rowTotal rows pid pname (pid r.2, pname r.2)) ∈
      (rows.map (fun r2 => (pid r2.2, pname r2.2))).dedup.map
        (fun k => (k.1, k.2, rowTotal rows pid pname k)) :=
    List.mem_map_of_mem _ hk
  rcases sort_take_complete _ _ hg with hin | ⟨hlen, hall⟩
  · left
    exact ⟨_, hin, rfl, rfl, rfl⟩
  · right
    exact ⟨hlen, hall⟩

/-- The emitted ranking carries pairwise-distinct keys: one output row per
group, provided key-equal rows agree on the name. -/
theorem topGroups_fst_nodup {P : Type} (rows : List (TimeEntry × P)) (pid pname : P → String)
    (hinj : ∀ x ∈ rows, ∀ y ∈ rows, pid x.2 = pid y.2 → pname x.2 = pname y.2) :
    ((topGroups rows pid pname).map (fun g => g.1)).Nodup := by
  have hkeys : (((rows.map (fun r2 => (pid r2.2, pname r2.2))).dedup).map
      (fun k : String × String => k.1)).Nodup := by
    apply List.Nodup.map_on ?_ (List.nodup_dedup _)
    intro k1 hk1 k2 hk2 h12
    rw [List.mem_dedup, List.mem_map] at hk1 hk2
    obtain ⟨r1, hr1, hkeq1⟩ := hk1
    obtain ⟨r2, hr2, hkeq2⟩ := hk2
    subst hkeq1
    subst hkeq2
    simp only [Prod.mk.injEq]
    exact ⟨h12, hinj r1 hr1 r2 hr2 h12⟩
  have hgroups : ((((rows.map (fun r2 => (pid r2.2, pname r2.2))).dedup).map
      (fun k => (k.1, k.2, rowTotal rows pid pname k))).map
      (fun g : String × String × Int => g.1)).Nodup := by
    rw [List.map_map]
    exact hkeys
  have hperm := (List.perm_insertionSort
      (fun a b : String × String × Int => b.2.2 ≤ a.2.2)
      (((rows.map (fun r2 => (pid r2.2, pname r2.2))).dedup).map
        (fun k => (k.1, k.2, rowTotal rows pid pname k)))).map
      (fun g : String × String × Int => g.1)
  have hsortnodup := hperm.nodup_iff.mpr hgroups
  have hsub := (List.take_sublist 5 (List.insertionSort
      (fun a b : String × String × Int => b.2.2 ≤ a.2.2)
      (((rows.map (fun r2 => (pid r2.2, pname r2.2))).dedup).map
        (fun k => (k.1, k.2, rowTotal rows pid pname k))))).map
      (fun g : String × String × Int => g.1)
  have hfinal : (((List.insertionSort
      (fun a b : String × String × Int => b.2.2 ≤ a.2.2)
      (((rows.map (fun r2 => (pid r2.2, pname r2.2))).dedup).map
        (fun k => (k.1, k.2, rowTotal rows pid pname k)))).take 5).map
      (fun g : String × String × Int => g.1)).Nodup :=
    List.Nodup.sublist hsub hsortnodup
  exact hfinal

/-- C7: the two month rankings of the dashboard compute exactly the claimed
group-sort-cap pipeline.  Soundness: each ranking is capped at 5, sorted
descending by total minutes, carries pairwise-distinct customer (project)
ids, and each emitted row names a customer (project) of the given
organization, carries its display name, and totals exactly the sum of the
non-null durations of the user's current-month entries whose foreign key
references it — entries with a null duration or a null foreign key
contribute to no group.  Completeness: every customer (project) of the
organization referenced by at least one qualifying entry of the user either
appears in the ranking with its name and its specification total, or the
ranking is already full with five groups whose totals are all at least its
own — so the output is never silently empty when qualifying groups exist.
Key-uniqueness of the parent tables (their primary keys) is assumed so that
the SQL inner join associates each entry with one parent. -/
theorem c7_top_rankings (db : DB) (u o : String) (now : Int)
    (hnc : (db.customers.map (fun c => c.id)).Nodup)
    (hnp : (db.projects.map (fun p => p.id)).Nodup) :
    ((getDashboardStats db u o now).topCustomersByTime.length ≤ 5
      ∧ List.Pairwise (fun a b : TopCustomer => b.total_minutes ≤ a.total_minutes)
          (getDashboardStats db u o now).topCustomersByTime
      ∧ ((getDashboardStats db u o now).topCustomersByTime.map
          (fun t => t.customer_id)).Nodup
      ∧ (∀ t ∈ (getDashboardStats db u o now).topCustomersByTime,
          ∃ c ∈ db.customers, t.customer_id = c.id ∧ t.customer_name = c.name
            ∧ c.organization_id = o
            ∧ t.total_minutes = specCustomerTotal db u (startOfMonthMs now) now c.id)
      ∧ (∀ c ∈ db.customers, c.organization_id = o →
          (∃ e ∈ db.time_entries, e.user_id = u ∧ e.customer_id = some c.id ∧
            startOfMonthMs now ≤ e.start_time ∧ e.start_time ≤ now ∧
            e.duration_minutes.isSome = true) →
          ((∃ t ∈ (getDashboardStats db u o now).topCustomersByTime,
              t.customer_id = c.id ∧ t.customer_name = c.name ∧
              t.total_minutes = specCustomerTotal db u (startOfMonthMs now) now c.id)
            ∨ ((getDashboardStats db u o now).topCustomersByTime.length = 5
              ∧ ∀ t ∈ (getDashboardStats db u o now).topCustomersByTime,
                  specCustomerTotal db u (startOfMonthMs now) now c.id
                    ≤ t.total_minutes))))
  ∧ ((getDashboardStats db u o now).topProjectsByTime.length ≤ 5
      ∧ List.Pairwise (fun a b : TopProject => b.total_minutes ≤ a.total_minutes)
          (getDashboardStats db u o now).topProjectsByTime
      ∧ ((getDashboardStats db u o now).topProjectsByTime.map
          (fun t => t.project_id)).Nodup
      ∧ (∀ t ∈ (getDashboardStats db u o now).topProjectsByTime,
          ∃ p ∈ db.projects, t.project_id = p.id ∧ t.project_name = p.name
            ∧ p.organization_id = o
            ∧ t.total_minutes = specProjectTotal db u (startOfMonthMs now) now p.id)
      ∧ (∀ p ∈ db.projects, p.organization_id = o →
          (∃ e ∈ db.time_entries, e.user_id = u ∧ e.project_id = some p.id ∧
            startOfMonthMs now ≤ e.start_time ∧ e.start_time ≤ now ∧
            e.duration_minutes.isSome = true) →
          ((∃ t ∈ (getDashboardStats db u o now).topProjectsByTime,
              t.project_id = p.id ∧ t.project_name = p.name ∧
              t.total_minutes = specProjectTotal db u (startOfMonthMs now) now p.id)
            ∨ ((getDashboardStats db u o now).topProjectsByTime.length = 5
              ∧ ∀ t ∈ (getDashboardStats db u o now).topProjectsByTime,
                  specProjectTotal db u (startOfMonthMs now) now p.id
                    ≤ t.total_minutes)))) := by
  have hcust : (getDashboardStats db u o now).topCustomersByTime
      = (topGroups (joinRows db.time_entries db.customers (fun e => e.customer_id)
          (fun c => c.id) (fun c => c.organization_id) u o (startOfMonthMs now) now)
          (fun c => c.id) (fun c => c.name)).map
          (fun g => { customer_id := g.1, customer_name := g.2.1,
                      total_minutes := g.2.2 }) := rfl
  have hproj : (getDashboardStats db u o now).topProjectsByTime
      = (topGroups (joinRows db.time_entries db.projects (fun e => e.project_id)
          (fun p => p.id) (fun p => p.organization_id) u o (startOfMonthMs now) now)
          (fun p => p.id) (fun p => p.name)).map
          (fun g => { project_id := g.1, project_name := g.2.1,
                      total_minutes := g.2.2 }) := rfl
  have hspecC := topGroups_spec (joinRows db.time_entries db.customers
    (fun e => e.customer_id) (fun c => c.id) (fun c => c.organization_id) u o
    (startOfMonthMs now) now) (fun c => c.id) (fun c => c.name)
  have hspecP := topGroups_spec (joinRows db.time_entries db.projects
    (fun e => e.project_id) (fun p => p.id) (fun p => p.organization_id) u o
    (startOfMonthMs now) now) (fun p => p.id) (fun p => p.name)
  constructor
  · refine ⟨?_, ?_, ?_, ?_, ?_⟩
    · rw [hcust, List.length_map]
      exact hspecC.1
    · rw [hcust, List.pairwise_map]
      exact hspecC.2.1
    · rw [hcust, List.map_map]
      apply topGroups_fst_nodup
      intro x hx y hy hpid
      obtain ⟨e1, c1⟩ := x
      obtain ⟨e2, c2⟩ := y
      rw [mem_joinRows] at hx hy
      have hcc : c1 = c2 := List.inj_on_of_nodup_map hnc hx.2.1 hy.2.1 hpid
      rw [hcc]
    · intro t ht
      rw [hcust, List.mem_map] at ht
      obtain ⟨g, hg, hteq⟩ := ht
      obtain ⟨r, hr, h1, h2, h3⟩ := hspecC.2.2 g hg
      obtain ⟨e, c⟩ := r
      rw [mem_joinRows] at hr
      obtain ⟨-, hcmem, hfk, hw, horg⟩ := hr
      subst hteq
      refine ⟨c, hcmem, h1, h2, horg, ?_⟩
      rw [h3, rowTotal_eq db.time_entries db.customers (fun e => e.customer_id)
        (fun c => c.id) (fun c => c.organization_id) (fun c => c.name) u o
        (startOfMonthMs now) now hnc c hcmem horg]
      rfl
    · rintro c hc horg ⟨e, he, hu, hck, hlo, hhi, hds⟩
      have hw : windowRow u (startOfMonthMs now) now e = true := by
        simp only [windowRow, Bool.and_eq_true, beq_iff_eq, decide_eq_true_eq]
        exact ⟨⟨⟨hu, hlo⟩, hhi⟩, hds⟩
      have hrow : ((e, c) : TimeEntry × Customer) ∈ joinRows db.time_entries db.customers
          (fun e => e.customer_id) (fun c => c.id) (fun c => c.organization_id) u o
          (startOfMonthMs now) now := by
        rw [mem_joinRows]
        exact ⟨he, hc, hck, hw, horg⟩
      rcases topGroups_complete _ (fun c => c.id) (fun c => c.name) (e, c) hrow with
        ⟨g, hg, h1, h2, h3⟩ | ⟨hlen, hall⟩
      · left
        refine ⟨{ customer_id := g.1, customer_name := g.2.1, total_minutes := g.2.2 },
          ?_, h1, h2, ?_⟩
        · rw [hcust]
          exact List.mem_map_of_mem _ hg
        · show g.2.2 = specCustomerTotal db u (startOfMonthMs now) now c.id
          rw [h3, rowTotal_eq db.time_entries db.customers (fun e => e.customer_id)
            (fun c => c.id) (fun c => c.organization_id) (fun c => c.name) u o
            (startOfMonthMs now) now hnc c hc horg]
          rfl
      · right
        constructor
        · rw [hcust, List.length_map]
          exact hlen
        · intro t ht
          rw [hcust, List.mem_map] at ht
          obtain ⟨g, hg, hteq⟩ := ht
          subst hteq
          have h4 := hall g hg
          rw [rowTotal_eq db.time_entries db.customers (fun e => e.customer_id)
            (fun c => c.id) (fun c => c.organization_id) (fun c => c.name) u o
            (startOfMonthMs now) now hnc c hc horg] at h4
          exact h4
  · refine ⟨?_, ?_, ?_, ?_, ?_⟩
    · rw [hproj, List.length_map]
      exact hspecP.1
    · rw [hproj, List.pairwise_map]
      exact hspecP.2.1
    · rw [hproj, List.map_map]
      apply topGroups_fst_nodup
      intro x hx y hy hpid
      obtain ⟨e1, p1⟩ := x
      obtain ⟨e2, p2⟩ := y
      rw [mem_joinRows] at hx hy
      have hpp : p1 = p2 := List.inj_on_of_nodup_map hnp hx.2.1 hy.2.1 hpid
      rw [hpp]
    · intro t ht
      rw [hproj, List.mem_map] at ht
      obtain ⟨g, hg, hteq⟩ := ht
      obtain ⟨r, hr, h1, h2, h3⟩ := hspecP.2.2 g hg
      obtain ⟨e, p⟩ := r
      rw [mem_joinRows] at hr
      obtain ⟨-, hpmem, hfk, hw, horg⟩ := hr
      subst hteq
      refine ⟨p, hpmem, h1, h2, horg, ?_⟩
      rw [h3, rowTotal_eq db.time_entries db.projects (fun e => e.project_id)
        (fun p => p.id) (fun p => p.organization_id) (fun p => p.name) u o
        (startOfMonthMs now) now hnp p hpmem horg]
      rfl
    · rintro p hp horg ⟨e, he, hu, hpk, hlo, hhi, hds⟩
      have hw : windowRow u (startOfMonthMs now) now e = true := by
        simp only [windowRow, Bool.and_eq_true, beq_iff_eq, decide_eq_true_eq]
        exact ⟨⟨⟨hu, hlo⟩, hhi⟩, hds⟩
      have hrow : ((e, p) : TimeEntry × Project) ∈ joinRows db.time_entries db.projects
          (fun e => e.project_id) (fun p => p.id) (fun p => p.organization_id) u o
          (startOfMonthMs now) now := by
        rw [mem_joinRows]
        exact ⟨he, hp, hpk, hw, horg⟩
      rcases topGroups_complete _ (fun p => p.id) (fun p => p.name) (e, p) hrow with
        ⟨g, hg, h1, h2, h3⟩ | ⟨hlen, hall⟩
      · left
        refine ⟨{ project_id := g.1, project_name := g.2.1, total_minutes := g.2.2 },
          ?_, h1, h2, ?_⟩
        · rw [hproj]
          exact List.mem_map_of_mem _ hg
        · show g.2.2 = specProjectTotal db u (startOfMonthMs now) now p.id
          rw [h3, rowTotal_eq db.time_entries db.projects (fun e => e.project_id)
            (fun p => p.id) (fun p => p.organization_id) (fun p => p.name) u o
            (startOfMonthMs now) now hnp p hp horg]
          rfl
      · right
        constructor
        · rw [hproj, List.length_map]
          exact hlen
        · intro t ht
          rw [hproj, List.mem_map] at ht
          obtain ⟨g, hg, hteq⟩ := ht
          subst hteq
          have h4 := hall g hg
          rw [rowTotal_eq db.time_entries db.projects (fun e => e.project_id)
            (fun p => p.id) (fun p => p.organization_id) (fun p => p.name) u o
            (startOfMonthMs now) now hnp p hp horg] at h4
          exact h4

/-- Witness for C7 at the concrete dashboard store: the single qualifying
customer group ("cA", "Acme", 180 minutes) and project group ("pD") are
actually present in the emitted rankings, the specification total evaluates
to 180, and applying the theorem's completeness branch to the concrete
customer with its concrete qualifying entry yields its appearance (or a
full ranking), with every hypothesis discharged by evaluation. -/
theorem c7_witness :
    ({ customer_id := "cA", customer_name := "Acme", total_minutes := 180 } : TopCustomer)
        ∈ (getDashboardStats c6db "u1" "org1" c6now).topCustomersByTime
  ∧ ({ project_id := "pD", project_name := "Doomed project", total_minutes := 180 } :
        TopProject)
        ∈ (getDashboardStats c6db "u1" "org1" c6now).topProjectsByTime
  ∧ specCustomerTotal c6db "u1" (startOfMonthMs c6now) c6now "cA" = 180
  ∧ ((∃ t ∈ (getDashboardStats c6db "u1" "org1" c6now).topCustomersByTime,
        t.customer_id = c1customer.id ∧ t.customer_name = c1customer.name ∧
        t.total_minutes
          = specCustomerTotal c6db "u1" (startOfMonthMs c6now) c6now c1customer.id)
      ∨ ((getDashboardStats c6db "u1" "org1" c6now).topCustomersByTime.length = 5
        ∧ ∀ t ∈ (getDashboardStats c6db "u1" "org1" c6now).topCustomersByTime,
            specCustomerTotal c6db "u1" (startOfMonthMs c6now) c6now c1customer.id
              ≤ t.total_minutes))
  ∧ (getDashboardStats c6db "u1" "org1" c6now).topCustomersByTime.length ≤ 5 := by
  have h := c7_top_rankings c6db "u1" "org1" c6now (by decide) (by decide)
  refine ⟨by decide, by decide, by decide, ?_, h.1.1⟩
  exact h.1.2.2.2.2 c1customer (by decide) (by decide)
    ⟨c6entryA, by decide, by decide, by decide, by decide, by decide, by decide⟩
